import Mathlib

/-!
Shallow embedding of the genesis entity-component core: the generational
entity registry (src/src/entity.rs), the dense vector-backed component
storage (src/src/vecstorage.rs), the sparse map-backed component storage
(src/src/mapstorage.rs) and the composed world produced by the code
generator (src/genesis-impl/src/world.rs).

Modelling conventions:
* u32 fields become Nat; every point where the Rust code wraps
  (wrapping_add on generations, `as u32` casts on indices) takes an
  explicit `% U32MOD`.
* `Vec<Option<T>>` becomes `List (Option T)`; `Vec::capacity` is modelled
  by the list length (the storage fills its vector up to the requested
  capacity at construction, and `resize_with` always sets the length to
  the computed target).
* `HashMap<u32, T>` is modelled extensionally as a function
  `Nat → Option T`.
* The shared registry handle `Arc<RwLock<Entities>>` held by every
  storage becomes an explicit `Entities` argument to each storage
  operation: the operation reads the registry through the handle, and the
  pure model passes the registry state it would observe.
* Methods taking `&mut self` and returning `R` become functions returning
  `State × R`, so that the paths that leave the state untouched are
  visible in the result.
-/

namespace Genesis

/-- 2^32, the modulus of the u32 arithmetic used by the Rust code. -/
def U32MOD : Nat := 2 ^ 32

/-- `Entity` from src/src/entity.rs: a slot index plus a generation. -/
structure Entity where
  index : Nat
  generation : Nat
deriving DecidableEq, Repr

/-- `NoSuchEntity` from src/src/no_such_entity.rs. -/
inductive NoSuchEntity where
  | mk
deriving DecidableEq, Repr

/-- `EntityIDEntry` from src/src/entity.rs. -/
inductive EntityIDEntry where
  | Used (generation : Nat)
  | Unused (generation : Nat)
deriving DecidableEq, Repr

/-- `EntityIDEntry::is_unused`. -/
def EntityIDEntry.is_unused : EntityIDEntry → Bool
  | .Unused _ => true
  | _ => false

/-- The generation carried by a slot entry (used to translate the
`match self.ids[index]` in `Entities::spawn`, whose `Used` arm is
unreachable). -/
def EntityIDEntry.generation : EntityIDEntry → Nat
  | .Used g => g
  | .Unused g => g

/-- `Entities` from src/src/entity.rs: the slot table. -/
structure Entities where
  ids : List EntityIDEntry
deriving DecidableEq, Repr

/-- `Entities::new(capacity)`: a table of `capacity` slots, all
`Unused(0)`. -/
def Entities.new (capacity : Nat) : Entities :=
  ⟨List.replicate capacity (.Unused 0)⟩

/-- `Entities::spawn`: take the lowest unused slot if there is one
(`position(|id| id.is_unused())`), otherwise push a fresh `Used(0)` slot.
The `usize as u32` casts on the returned index are the `% U32MOD`. -/
def Entities.spawn (self : Entities) : Entities × Entity :=
  match List.findIdx? EntityIDEntry.is_unused self.ids with
  | some index =>
    let gen := (self.ids.getD index (.Unused 0)).generation
    (⟨self.ids.set index (.Used gen)⟩, ⟨index % U32MOD, gen⟩)
  | none =>
    (⟨self.ids ++ [.Used 0]⟩, ⟨self.ids.length % U32MOD, 0⟩)

/-- `Entities::iter`: every `Used` slot, as an entity, in slot order. -/
def Entities.iter (self : Entities) : List Entity :=
  self.ids.enum.filterMap fun p =>
    match p.2 with
    | .Used gen => some ⟨p.1 % U32MOD, gen⟩
    | .Unused _ => none

/-- `Entities::exists`: the slot at the index is `Used` with the same
generation; a missing slot means false. (`exists` is a reserved word in
Lean, hence the `b` suffix.) -/
def Entities.existsb (self : Entities) (id : Entity) : Bool :=
  match self.ids.get? id.index with
  | some (.Unused _) => false
  | some (.Used generation) => generation == id.generation
  | none => false

/-- `Entities::despawn`: on a live handle, bump the slot to
`Unused(generation.wrapping_add(1))`; otherwise fail with
`NoSuchEntity` and leave the table alone. -/
def Entities.despawn (self : Entities) (id : Entity) :
    Entities × Except NoSuchEntity Unit :=
  match self.ids.get? id.index with
  | some (.Used generation) =>
    if id.generation == generation then
      (⟨self.ids.set id.index (.Unused ((generation + 1) % U32MOD))⟩, .ok ())
    else
      (self, .error .mk)
  | _ => (self, .error .mk)

/-- `Entities::clear`: every `Used(g)` slot becomes
`Unused(g.wrapping_add(1))`; `Unused` slots stay as they are. -/
def Entities.clear (self : Entities) : Entities :=
  ⟨self.ids.map fun id =>
    match id with
    | .Used generation => .Unused ((generation + 1) % U32MOD)
    | e => e⟩

/-- `VecStorage<T>` from src/src/vecstorage.rs, without its copy of the
shared registry handle (see the module docstring). -/
structure VecStorage (T : Type) where
  vec : List (Option T)
deriving DecidableEq, Repr

/-- `VecStorage::new`. -/
def VecStorage.new (T : Type) (capacity : Nat) : VecStorage T :=
  ⟨List.replicate capacity none⟩

/-- `VecStorage::get`: validate against the registry, then read
`self.vec.get(index).unwrap_or(&None)`. -/
def VecStorage.get {T : Type} (self : VecStorage T) (entities : Entities)
    (entity : Entity) : Option T :=
  if entities.existsb entity then
    self.vec.getD entity.index none
  else
    none

/-- `VecStorage::get_mut`, as the value the returned reference would
expose: validate, then `self.vec.get_mut(index)` flattened. -/
def VecStorage.get_mut {T : Type} (self : VecStorage T) (entities : Entities)
    (entity : Entity) : Option T :=
  if entities.existsb entity then
    match self.vec.get? entity.index with
    | some entry => entry
    | none => none
  else
    none

/-- `VecStorage::set`: validate; in range, replace the entry and return
the evicted value; out of range, resize to
`max(2 * capacity, index + 1)` (capacity modelled as the length) with
`None` fill, then store. -/
def VecStorage.set {T : Type} (self : VecStorage T) (entities : Entities)
    (entity : Entity) (data : T) :
    VecStorage T × Except NoSuchEntity (Option T) :=
  if entities.existsb entity then
    match self.vec.get? entity.index with
    | none =>
      let new_len := max (self.vec.length * 2) (entity.index + 1)
      let grown := self.vec ++ List.replicate (new_len - self.vec.length) none
      (⟨grown.set entity.index (some data)⟩, .ok none)
    | some entry =>
      (⟨self.vec.set entity.index (some data)⟩, .ok entry)
  else
    (self, .error .mk)

/-- `VecStorage::remove_unchecked`: no validation; `entry.take()` when
the index is in range, `None` otherwise. -/
def VecStorage.remove_unchecked {T : Type} (self : VecStorage T)
    (entity : Entity) : VecStorage T × Option T :=
  match self.vec.get? entity.index with
  | some entry => (⟨self.vec.set entity.index none⟩, entry)
  | none => (self, none)

/-- `VecStorage::remove`: validate, then `entry.take()` (an in-range
empty or out-of-range index yields `Ok(None)`). -/
def VecStorage.remove {T : Type} (self : VecStorage T) (entities : Entities)
    (entity : Entity) : VecStorage T × Except NoSuchEntity (Option T) :=
  if entities.existsb entity then
    match self.vec.get? entity.index with
    | some entry => (⟨self.vec.set entity.index none⟩, .ok entry)
    | none => (self, .ok none)
  else
    (self, .error .mk)

/-- `VecStorage::clear`. -/
def VecStorage.clear {T : Type} (_self : VecStorage T) : VecStorage T :=
  ⟨[]⟩

/-- `MapStorage<T>` from src/src/mapstorage.rs: the `HashMap<u32, T>`
modelled extensionally, without the shared registry handle. -/
structure MapStorage (T : Type) where
  map : Nat → Option T

/-- `MapStorage::new`. -/
def MapStorage.new (T : Type) : MapStorage T :=
  ⟨fun _ => none⟩

/-- `MapStorage::get`: validate, then `self.map.get(&entity.index)`. -/
def MapStorage.get {T : Type} (self : MapStorage T) (entities : Entities)
    (entity : Entity) : Option T :=
  if entities.existsb entity then
    self.map entity.index
  else
    none

/-- `MapStorage::get_mut`, as the value the returned reference would
expose. -/
def MapStorage.get_mut {T : Type} (self : MapStorage T) (entities : Entities)
    (entity : Entity) : Option T :=
  if entities.existsb entity then
    self.map entity.index
  else
    none

/-- `MapStorage::set`: validate, then `self.map.insert(entity.index,
data)`, which returns the previous value for the key. -/
def MapStorage.set {T : Type} (self : MapStorage T) (entities : Entities)
    (entity : Entity) (data : T) :
    MapStorage T × Except NoSuchEntity (Option T) :=
  if entities.existsb entity then
    (⟨fun k => if k = entity.index then some data else self.map k⟩,
      .ok (self.map entity.index))
  else
    (self, .error .mk)

/-- `MapStorage::remove_unchecked`: no validation;
`self.map.remove(&entity.index)`. -/
def MapStorage.remove_unchecked {T : Type} (self : MapStorage T)
    (entity : Entity) : MapStorage T × Option T :=
  (⟨fun k => if k = entity.index then none else self.map k⟩,
    self.map entity.index)

/-- `MapStorage::remove`: validate, then `self.map.remove(&entity.index)`. -/
def MapStorage.remove {T : Type} (self : MapStorage T) (entities : Entities)
    (entity : Entity) : MapStorage T × Except NoSuchEntity (Option T) :=
  if entities.existsb entity then
    (⟨fun k => if k = entity.index then none else self.map k⟩,
      .ok (self.map entity.index))
  else
    (self, .error .mk)

/-- `MapStorage::clear`. -/
def MapStorage.clear {T : Type} (_self : MapStorage T) : MapStorage T :=
  ⟨fun _ => none⟩

/-- A world produced by the genesis code generator
(src/genesis-impl/src/world.rs) for two component fields, one on each
storage kind: the shared registry plus one storage per component. -/
structure World (T U : Type) where
  entities : Entities
  dense : VecStorage T
  sparse : MapStorage U

/-- The generated `World::new`. -/
def World.new (T U : Type) (initial_capacity : Nat) : World T U :=
  ⟨Entities.new initial_capacity, VecStorage.new T initial_capacity,
    MapStorage.new U⟩

/-- The generated `World::spawn`: forwards to the registry. -/
def World.spawn {T U : Type} (self : World T U) : World T U × Entity :=
  let r := self.entities.spawn
  ({ self with entities := r.1 }, r.2)

/-- The generated `World::despawn`: registry despawn, then (on success
only, because of the `?`) `remove_unchecked` fan-out over every storage
field. -/
def World.despawn {T U : Type} (self : World T U) (entity : Entity) :
    World T U × Except NoSuchEntity Unit :=
  let r := self.entities.despawn entity
  match r.2 with
  | .error e => ({ self with entities := r.1 }, .error e)
  | .ok () =>
    (⟨r.1, (self.dense.remove_unchecked entity).1,
      (self.sparse.remove_unchecked entity).1⟩, .ok ())

/-! ### Helper lemmas -/

theorem U32MOD_pos : 0 < U32MOD :=
  Nat.two_pow_pos 32

/-- Liveness unfolded: the slot at the index of the handle is `Used` with
the generation of the handle. -/
theorem existsb_iff (self : Entities) (e : Entity) :
    self.existsb e = true ↔
      self.ids.get? e.index = some (.Used e.generation) := by
  rw [List.get?_eq_getElem?]
  cases h : self.ids[e.index]? with
  | none => simp [Entities.existsb, h]
  | some entry =>
    cases entry with
    | Used g => simp [Entities.existsb, h]
    | Unused g => simp [Entities.existsb, h]

theorem existsb_false_iff (self : Entities) (e : Entity) :
    self.existsb e = false ↔
      self.ids.get? e.index ≠ some (.Used e.generation) := by
  constructor
  · intro h hcontra
    have hb := (existsb_iff self e).mpr hcontra
    rw [h] at hb
    exact absurd hb (by simp)
  · intro h
    cases hb : self.existsb e
    · rfl
    · exact absurd ((existsb_iff self e).mp hb) h

/-- A u32 increment never returns its argument. -/
theorem mod_succ_ne (g : Nat) : (g + 1) % U32MOD ≠ g := by
  intro h
  have hlt : g < U32MOD := by
    rw [← h]; exact Nat.mod_lt _ U32MOD_pos
  rcases Nat.lt_or_ge (g + 1) U32MOD with h1 | h1
  · rw [Nat.mod_eq_of_lt h1] at h
    omega
  · have hEq : g + 1 = U32MOD := by omega
    rw [hEq, Nat.mod_self] at h
    have : U32MOD = 1 := by omega
    simp [U32MOD] at this

/-- `findIdx` returns a position whose entry satisfies the property and
below which no entry does. -/
theorem findIdx_eq_of {α : Type} (p : α → Bool) (l : List α) (i : Nat) (x : α)
    (hx : l.get? i = some x) (hpx : p x = true)
    (hmin : ∀ j y, j < i → l.get? j = some y → p y = false) :
    l.findIdx p = i := by
  have hi : i < l.length := by
    by_contra hge
    rw [List.get?_eq_getElem?, List.getElem?_eq_none (Nat.le_of_not_lt hge)] at hx
    exact absurd hx (by simp)
  have hex : ∃ y ∈ l, p y = true := by
    refine ⟨x, ?_, hpx⟩
    exact List.get?_mem hx
  have hflt : l.findIdx p < l.length := List.findIdx_lt_length_of_exists hex
  rcases Nat.lt_trichotomy (l.findIdx p) i with hlt | hEq | hgt
  · exfalso
    have hgetf : l.get? (l.findIdx p) = some l[l.findIdx p] := by
      rw [List.get?_eq_getElem?, List.getElem?_eq_getElem hflt]
    have := hmin (l.findIdx p) (l[l.findIdx p]) hlt hgetf
    have hpt : p (l[l.findIdx p]) = true := List.findIdx_getElem
    rw [this] at hpt
    exact absurd hpt (by simp)
  · exact hEq
  · exfalso
    have hfalse : p (l[i]) = false := List.not_of_lt_findIdx hgt
    have : l.get? i = some l[i] := by
      rw [List.get?_eq_getElem?, List.getElem?_eq_getElem hi]
    rw [this] at hx
    injection hx with hx
    rw [← hx, hfalse] at hpx
    exact absurd hpx (by simp)

theorem get?_set_self {α : Type} (l : List α) (i : Nat) (a : α)
    (h : i < l.length) : (l.set i a).get? i = some a := by
  rw [List.get?_eq_getElem?]
  exact List.getElem?_set_eq_of_lt a h

theorem get?_set_ne {α : Type} (l : List α) (i j : Nat) (a : α)
    (h : i ≠ j) : (l.set i a).get? j = l.get? j := by
  rw [List.get?_eq_getElem?, List.get?_eq_getElem?]
  exact List.getElem?_set_ne h

/-- `VecStorage::remove_unchecked` leaves nothing behind at the index. -/
theorem vec_remove_unchecked_getD {T : Type} (s : VecStorage T) (e : Entity) :
    ((s.remove_unchecked e).1).vec.getD e.index none = none := by
  unfold VecStorage.remove_unchecked
  cases h : s.vec.get? e.index with
  | none =>
    simp only
    rw [List.getD_eq_getElem?_getD, ← List.get?_eq_getElem?, h]
    rfl
  | some entry =>
    simp only
    rw [List.getD_eq_getElem?_getD, ← List.get?_eq_getElem?]
    have hlt : e.index < s.vec.length := by
      by_contra hge
      rw [List.get?_eq_getElem?, List.getElem?_eq_none (Nat.le_of_not_lt hge)] at h
      exact absurd h (by simp)
    rw [get?_set_self _ _ _ hlt]
    rfl

/-- `MapStorage::remove_unchecked` leaves nothing behind at the index. -/
theorem map_remove_unchecked_at {T : Type} (m : MapStorage T) (e : Entity) :
    ((m.remove_unchecked e).1).map e.index = none := by
  unfold MapStorage.remove_unchecked
  simp

theorem get?_some_lt {α : Type} {l : List α} {i : Nat} {x : α}
    (h : l.get? i = some x) : i < l.length := by
  by_contra hge
  rw [List.get?_eq_getElem?, List.getElem?_eq_none (Nat.le_of_not_lt hge)] at h
  exact absurd h (by simp)

/-! ### Claims -/

/-- Claim C6: `Entities::exists` returns true exactly when the index is
in range and the slot there is `Used` with the same generation; an
out-of-range index yields false, and the `Bool` return type leaves no room for an
error. -/
theorem claim_C6_exists (self : Entities) (e : Entity) :
    (self.existsb e = true ↔
      e.index < self.ids.length ∧
        self.ids.get? e.index = some (.Used e.generation)) ∧
    (self.ids.length ≤ e.index → self.existsb e = false) := by
  constructor
  · rw [existsb_iff]
    constructor
    · intro h
      exact ⟨get?_some_lt h, h⟩
    · exact fun h => h.2
  · intro h
    rw [existsb_false_iff, List.get?_eq_getElem?, List.getElem?_eq_none h]
    simp

theorem claim_C6_witness :
    Entities.existsb ⟨[.Used 4]⟩ ⟨0, 4⟩ = true ∧
      Entities.existsb ⟨[.Used 4]⟩ ⟨1, 0⟩ = false :=
  ⟨(claim_C6_exists ⟨[.Used 4]⟩ ⟨0, 4⟩).1.mpr ⟨by decide, by decide⟩,
    (claim_C6_exists ⟨[.Used 4]⟩ ⟨1, 0⟩).2 (by decide)⟩

/-- Claim C5: for an entity the registry does not consider alive, `get`
and `get_mut` return absent on both storage kinds no matter what the
backing structure holds at the index, and `set` and `remove` fail with
`NoSuchEntity` while returning the backing state untouched. -/
theorem claim_C5_dead_entity {T U : Type} (es : Entities) (e : Entity)
    (h : es.existsb e = false) (s : VecStorage T) (m : MapStorage U)
    (v : T) (u : U) :
    s.get es e = none ∧ s.get_mut es e = none ∧
    s.set es e v = (s, .error .mk) ∧ s.remove es e = (s, .error .mk) ∧
    m.get es e = none ∧ m.get_mut es e = none ∧
    m.set es e u = (m, .error .mk) ∧ m.remove es e = (m, .error .mk) := by
  refine ⟨?_, ?_, ?_, ?_, ?_, ?_, ?_, ?_⟩ <;>
    simp [VecStorage.get, VecStorage.get_mut, VecStorage.set,
      VecStorage.remove, MapStorage.get, MapStorage.get_mut,
      MapStorage.set, MapStorage.remove, h]

theorem claim_C5_witness :
    VecStorage.get (⟨[some 3]⟩ : VecStorage Nat) ⟨[.Used 1]⟩ ⟨0, 0⟩ = none ∧
    VecStorage.set (⟨[some 3]⟩ : VecStorage Nat) ⟨[.Used 1]⟩ ⟨0, 0⟩ 9
      = (⟨[some 3]⟩, .error .mk) ∧
    MapStorage.set (⟨fun _ => some 7⟩ : MapStorage Nat) ⟨[.Used 1]⟩ ⟨0, 0⟩ 9
      = (⟨fun _ => some 7⟩, .error .mk) :=
  have h := @claim_C5_dead_entity Nat Nat ⟨[.Used 1]⟩ ⟨0, 0⟩ (by decide)
    ⟨[some 3]⟩ ⟨fun _ => some 7⟩ 9 9
  ⟨h.1, h.2.2.1, h.2.2.2.2.2.2.1⟩

/-- Claim C10: `remove_unchecked` is total on both storages and keyed
purely by the index of the handle: the generation is ignored, whatever
value sits at the index is removed and returned, and an out-of-range or
empty index yields `none` with no error signalled. -/
theorem claim_C10_remove_unchecked {T U : Type} (s : VecStorage T)
    (m : MapStorage U) (e : Entity) (g : Nat) :
    ((s.remove_unchecked e).2 = s.vec.getD e.index none) ∧
    (s.remove_unchecked e = s.remove_unchecked ⟨e.index, g⟩) ∧
    (((s.remove_unchecked e).1).vec.getD e.index none = none) ∧
    (s.vec.length ≤ e.index → s.remove_unchecked e = (s, none)) ∧
    ((m.remove_unchecked e).2 = m.map e.index) ∧
    (m.remove_unchecked e = m.remove_unchecked ⟨e.index, g⟩) ∧
    (((m.remove_unchecked e).1).map e.index = none) := by
  refine ⟨?_, rfl, vec_remove_unchecked_getD s e, ?_, rfl, rfl,
    map_remove_unchecked_at m e⟩
  · unfold VecStorage.remove_unchecked
    cases h : s.vec.get? e.index with
    | none =>
      simp only
      rw [List.getD_eq_getElem?_getD, ← List.get?_eq_getElem?, h]
      rfl
    | some entry =>
      simp only
      rw [List.getD_eq_getElem?_getD, ← List.get?_eq_getElem?, h]
      rfl
  · intro h
    unfold VecStorage.remove_unchecked
    rw [List.get?_eq_getElem?, List.getElem?_eq_none h]

theorem claim_C10_witness :
    VecStorage.remove_unchecked (⟨[some 3]⟩ : VecStorage Nat) ⟨0, 77⟩
      = (⟨[none]⟩, some 3) ∧
    VecStorage.remove_unchecked (⟨[some 3]⟩ : VecStorage Nat) ⟨5, 0⟩
      = (⟨[some 3]⟩, none) ∧
    (MapStorage.remove_unchecked (⟨fun _ => none⟩ : MapStorage Nat) ⟨2, 9⟩).2
      = none :=
  have h1 := @claim_C10_remove_unchecked Nat Nat ⟨[some 3]⟩ ⟨fun _ => none⟩
    ⟨0, 77⟩ 0
  have h2 := @claim_C10_remove_unchecked Nat Nat ⟨[some 3]⟩ ⟨fun _ => none⟩
    ⟨5, 0⟩ 0
  have h3 := @claim_C10_remove_unchecked Nat Nat ⟨[some 3]⟩ ⟨fun _ => none⟩
    ⟨2, 9⟩ 0
  ⟨by rw [h1.2.1]; rfl, h2.2.2.2.1 (by decide), by rw [h3.2.2.2.2.1]⟩

/-- Claim C2: `despawn` fails with `NoSuchEntity` and leaves the table
untouched unless the handle is alive; on a live handle the slot moves to
`Unused((generation + 1) mod 2^32)`, the old handle stops existing, and
a subsequent spawn that lands on the same index returns an entity whose
generation is exactly the wrapped successor, hence a different entity. -/
theorem claim_C2_despawn (self : Entities) (e : Entity) :
    (self.existsb e = false → self.despawn e = (self, .error .mk)) ∧
    (self.existsb e = true →
      (self.despawn e).2 = .ok () ∧
      ((self.despawn e).1).ids.get? e.index
        = some (.Unused ((e.generation + 1) % U32MOD)) ∧
      ((self.despawn e).1).existsb e = false ∧
      ((((self.despawn e).1).spawn.2).index = e.index →
        (((self.despawn e).1).spawn.2).generation
          = (e.generation + 1) % U32MOD ∧
        ((self.despawn e).1).spawn.2 ≠ e)) := by
  constructor
  · intro h
    rw [existsb_false_iff] at h
    unfold Entities.despawn
    cases hg : self.ids.get? e.index with
    | none => simp
    | some entry =>
      cases entry with
      | Unused g => simp
      | Used g =>
        have hne : e.generation ≠ g := by
          intro hEq
          exact h (by rw [hg, hEq])
        simp [hne]
  · intro h
    have hg : self.ids.get? e.index = some (.Used e.generation) :=
      (existsb_iff self e).mp h
    have hlt : e.index < self.ids.length := get?_some_lt hg
    have hD : self.despawn e
        = (⟨self.ids.set e.index
            (.Unused ((e.generation + 1) % U32MOD))⟩, .ok ()) := by
      unfold Entities.despawn
      rw [hg]
      simp
    rw [hD]
    have hslot : (self.ids.set e.index
          (.Unused ((e.generation + 1) % U32MOD))).get? e.index
        = some (.Unused ((e.generation + 1) % U32MOD)) :=
      get?_set_self _ _ _ hlt
    refine ⟨rfl, hslot, ?_, ?_⟩
    · rw [existsb_false_iff]
      simp only [hslot]
      intro hcontra
      injection hcontra with hcontra
      exact absurd hcontra (by simp)
    · intro hidx
      set l2 : List EntityIDEntry :=
        self.ids.set e.index (.Unused ((e.generation + 1) % U32MOD)) with hl2
      cases hf : List.findIdx? EntityIDEntry.is_unused l2 with
      | none =>
        exfalso
        rw [List.findIdx?_eq_none_iff] at hf
        have hmem : (EntityIDEntry.Unused ((e.generation + 1) % U32MOD)) ∈ l2 :=
          List.get?_mem hslot
        have := hf _ hmem
        simp [EntityIDEntry.is_unused] at this
      | some i =>
        have hi := (List.findIdx?_eq_some_iff_findIdx_eq.mp hf).2
        have hile : i ≤ e.index := by
          by_contra hgt
          have hgt2 : e.index < List.findIdx EntityIDEntry.is_unused l2 := by
            rw [hi]; exact Nat.lt_of_not_le hgt
          have hfalse := List.not_of_lt_findIdx hgt2
          have hlen : e.index < l2.length := get?_some_lt hslot
          have hget : l2[e.index] = .Unused ((e.generation + 1) % U32MOD) := by
            have : l2[e.index]? = some (.Unused ((e.generation + 1) % U32MOD)) := by
              rw [← List.get?_eq_getElem?]; exact hslot
            rw [List.getElem?_eq_getElem hlen] at this
            injection this
          rw [hget] at hfalse
          simp [EntityIDEntry.is_unused] at hfalse
        have hspawn : (Entities.spawn ⟨l2⟩).2
            = ⟨i % U32MOD, ((l2.getD i (.Unused 0)).generation)⟩ := by
          unfold Entities.spawn
          simp only [hf]
        rw [hspawn] at hidx ⊢
        simp only at hidx ⊢
        have hieq : i = e.index := by
          have h1 : i % U32MOD ≤ i := Nat.mod_le i U32MOD
          omega
        have hgen : (l2.getD i (.Unused 0)).generation
            = (e.generation + 1) % U32MOD := by
          rw [hieq, List.getD_eq_getElem?_getD, ← List.get?_eq_getElem?, hslot]
          rfl
        refine ⟨hgen, ?_⟩
        intro hcontra
        have hgens : (e.generation + 1) % U32MOD = e.generation := by
          rw [← hgen]
          exact congrArg Entity.generation hcontra
        exact mod_succ_ne e.generation hgens

theorem claim_C2_witness :
    (Entities.despawn ⟨[.Used 3]⟩ ⟨0, 2⟩ = (⟨[.Used 3]⟩, .error .mk)) ∧
    ((Entities.despawn ⟨[.Used 3]⟩ ⟨0, 3⟩).1.ids.get? 0
      = some (.Unused 4)) ∧
    ((Entities.despawn ⟨[.Used 3]⟩ ⟨0, 3⟩).1.existsb ⟨0, 3⟩ = false) ∧
    ((Entities.despawn ⟨[.Used 3]⟩ ⟨0, 3⟩).1.spawn.2 ≠ ⟨0, 3⟩) :=
  have h1 := claim_C2_despawn ⟨[.Used 3]⟩ ⟨0, 2⟩
  have h2 := claim_C2_despawn ⟨[.Used 3]⟩ ⟨0, 3⟩
  have hs := (h2.2 (by decide)).2.2.2 (by rfl)
  ⟨h1.1 (by decide), by
      have := (h2.2 (by decide)).2.1
      simpa using this,
    (h2.2 (by decide)).2.2.1, hs.2⟩

/-- Claim C8 counterexample: the claim reads the transition of a `Used`
slot under `clear` as `Unused(generation + 1)` with no wrap, but the
code uses `wrapping_add`, so a slot holding the maximal u32 generation
moves to `Unused(0)` instead of `Unused(2^32)`. -/
theorem claim_C8_counterexample :
    Entities.clear ⟨[.Used (U32MOD - 1)]⟩
      ≠ (⟨[.Unused ((U32MOD - 1) + 1)]⟩ : Entities) := by
  decide

/-- Claim C8 (amended with the u32 wrap): `clear` keeps the table length,
sends every `Used(g)` slot to `Unused((g + 1) mod 2^32)`, keeps `Unused`
slots as they are, invalidates every previously alive entity, and a
subsequent spawn at a previously used index 0 returns the wrapped
successor generation. -/
theorem claim_C8_clear (self : Entities) :
    (self.clear.ids.length = self.ids.length) ∧
    (∀ i g, self.ids.get? i = some (.Used g) →
      self.clear.ids.get? i = some (.Unused ((g + 1) % U32MOD))) ∧
    (∀ i g, self.ids.get? i = some (.Unused g) →
      self.clear.ids.get? i = some (.Unused g)) ∧
    (∀ e, self.existsb e = true → self.clear.existsb e = false) ∧
    (∀ g, self.ids.get? 0 = some (.Used g) →
      (self.clear.spawn).2 = ⟨0, (g + 1) % U32MOD⟩) := by
  have hmap : ∀ i g, self.ids.get? i = some (.Used g) →
      self.clear.ids.get? i = some (.Unused ((g + 1) % U32MOD)) := by
    intro i g hi
    unfold Entities.clear
    simp only [List.get?_eq_getElem?, List.getElem?_map]
    rw [← List.get?_eq_getElem?, hi]
    rfl
  refine ⟨List.length_map _ _, hmap, ?_, ?_, ?_⟩
  · intro i g hi
    unfold Entities.clear
    simp only [List.get?_eq_getElem?, List.getElem?_map]
    rw [← List.get?_eq_getElem?, hi]
    rfl
  · intro e he
    have hg := (existsb_iff self e).mp he
    have := hmap e.index e.generation hg
    rw [existsb_false_iff, this]
    intro hcontra
    injection hcontra with hcontra
    exact absurd hcontra (by simp)
  · intro g hg
    have hslot := hmap 0 g hg
    have hlen : 0 < self.clear.ids.length := get?_some_lt hslot
    have hfind : self.clear.ids.findIdx EntityIDEntry.is_unused = 0 := by
      apply findIdx_eq_of _ _ 0 _ hslot rfl
      intro j y hj _
      exact absurd hj (Nat.not_lt_zero j)
    have hf : List.findIdx? EntityIDEntry.is_unused self.clear.ids = some 0 :=
      List.findIdx?_eq_some_iff_findIdx_eq.mpr ⟨hlen, hfind⟩
    show (Entities.spawn self.clear).2 = _
    unfold Entities.spawn
    simp only [hf]
    have hgen : ((self.clear.ids[0]?).getD (EntityIDEntry.Unused 0)).generation
        = (g + 1) % U32MOD := by
      rw [← List.get?_eq_getElem?, hslot]
      rfl
    simp [hgen]

theorem claim_C8_witness :
    (Entities.clear ⟨[.Used 4, .Unused 7]⟩).ids.get? 0
      = some (.Unused 5) ∧
    (Entities.clear ⟨[.Used 4, .Unused 7]⟩).existsb ⟨0, 4⟩ = false ∧
    ((Entities.clear ⟨[.Used 4, .Unused 7]⟩).spawn).2 = ⟨0, 5⟩ :=
  have h := claim_C8_clear ⟨[.Used 4, .Unused 7]⟩
  ⟨by
      have := h.2.1 0 4 (by decide)
      simpa using this,
    h.2.2.2.1 ⟨0, 4⟩ (by decide), by
      have := h.2.2.2.2 4 (by decide)
      simpa using this⟩

/-- The in-range branch of `VecStorage::set`. -/
theorem vec_set_in_range {T : Type} (s : VecStorage T) (es : Entities)
    (e : Entity) (v : T) (entry : Option T)
    (h : es.existsb e = true) (hv : s.vec.get? e.index = some entry) :
    s.set es e v = (⟨s.vec.set e.index (some v)⟩, .ok entry) := by
  unfold VecStorage.set
  rw [hv]
  simp [h]

/-- The growth branch of `VecStorage::set`. -/
theorem vec_set_grow {T : Type} (s : VecStorage T) (es : Entities)
    (e : Entity) (v : T)
    (h : es.existsb e = true) (hv : s.vec.get? e.index = none) :
    s.set es e v
      = (⟨(s.vec ++ List.replicate
            (max (s.vec.length * 2) (e.index + 1) - s.vec.length) none).set
          e.index (some v)⟩, .ok none) := by
  unfold VecStorage.set
  rw [hv]
  simp [h]

theorem grow_length {T : Type} (l : List (Option T)) (k : Nat)
    (hge : l.length ≤ k) :
    (l ++ List.replicate (max (l.length * 2) (k + 1) - l.length)
        (none : Option T)).length
      = max (l.length * 2) (k + 1) := by
  rw [List.length_append, List.length_replicate]
  omega

/-- Claim C7: on a live entity, `set` then `get` round-trips the exact
value and `set` returns the immediately prior value (absent on first
set); `remove` then `get` yields absent, and `remove` with nothing
stored returns `Ok(absent)` rather than an error — on both storages. -/
theorem claim_C7_roundtrip {T U : Type} (es : Entities) (e : Entity)
    (h : es.existsb e = true) (s : VecStorage T) (m : MapStorage U)
    (v : T) (u : U) :
    ((s.set es e v).2 = .ok (s.get es e)) ∧
    (((s.set es e v).1).get es e = some v) ∧
    ((s.remove es e).2 = .ok (s.get es e)) ∧
    (((s.remove es e).1).get es e = none) ∧
    ((m.set es e u).2 = .ok (m.get es e)) ∧
    (((m.set es e u).1).get es e = some u) ∧
    ((m.remove es e).2 = .ok (m.get es e)) ∧
    (((m.remove es e).1).get es e = none) := by
  have hmap : ((m.set es e u).2 = .ok (m.get es e)) ∧
      (((m.set es e u).1).get es e = some u) ∧
      ((m.remove es e).2 = .ok (m.get es e)) ∧
      (((m.remove es e).1).get es e = none) := by
    refine ⟨?_, ?_, ?_, ?_⟩ <;>
      simp [MapStorage.set, MapStorage.get, MapStorage.remove, h]
  have hget : s.get es e = s.vec.getD e.index none := by
    simp [VecStorage.get, h]
  cases hv : s.vec.get? e.index with
  | some entry =>
    have hlt : e.index < s.vec.length := get?_some_lt hv
    have hgete : s.get es e = entry := by
      rw [hget, List.getD_eq_getElem?_getD, ← List.get?_eq_getElem?, hv]
      rfl
    have hset := vec_set_in_range s es e v entry h hv
    have hrem : s.remove es e = (⟨s.vec.set e.index none⟩, .ok entry) := by
      unfold VecStorage.remove
      rw [hv]
      simp [h]
    refine ⟨?_, ?_, ?_, ?_, hmap.1, hmap.2.1, hmap.2.2.1, hmap.2.2.2⟩
    · rw [hset, hgete]
    · rw [hset]
      simp only [VecStorage.get, h, if_true]
      rw [List.getD_eq_getElem?_getD, ← List.get?_eq_getElem?,
        get?_set_self _ _ _ hlt]
      rfl
    · rw [hrem, hgete]
    · rw [hrem]
      simp only [VecStorage.get, h, if_true]
      rw [List.getD_eq_getElem?_getD, ← List.get?_eq_getElem?,
        get?_set_self _ _ _ hlt]
      rfl
  | none =>
    have hge : s.vec.length ≤ e.index := by
      rw [List.get?_eq_getElem?] at hv
      exact List.getElem?_eq_none_iff.mp hv
    have hgete : s.get es e = none := by
      rw [hget, List.getD_eq_getElem?_getD, ← List.get?_eq_getElem?, hv]
      rfl
    have hset := vec_set_grow s es e v h hv
    have hrem : s.remove es e = (s, .ok none) := by
      unfold VecStorage.remove
      rw [hv]
      simp [h]
    refine ⟨?_, ?_, ?_, ?_, hmap.1, hmap.2.1, hmap.2.2.1, hmap.2.2.2⟩
    · rw [hset, hgete]
    · rw [hset]
      simp only [VecStorage.get, h, if_true]
      have hltg : e.index < (s.vec ++ List.replicate
          (max (s.vec.length * 2) (e.index + 1) - s.vec.length)
          (none : Option T)).length := by
        rw [grow_length _ _ hge]
        omega
      rw [List.getD_eq_getElem?_getD, ← List.get?_eq_getElem?,
        get?_set_self _ _ _ hltg]
      rfl
    · rw [hrem, hgete]
    · rw [hrem, hgete]

theorem claim_C7_witness :
    ((VecStorage.set (⟨[none]⟩ : VecStorage Nat) ⟨[.Used 0]⟩ ⟨0, 0⟩ 42).2
      = .ok none) ∧
    (((VecStorage.set (⟨[none]⟩ : VecStorage Nat) ⟨[.Used 0]⟩ ⟨0, 0⟩ 42).1).get
      ⟨[.Used 0]⟩ ⟨0, 0⟩ = some 42) ∧
    ((MapStorage.remove (⟨fun _ => none⟩ : MapStorage Nat) ⟨[.Used 0]⟩
      ⟨0, 0⟩).2 = .ok none) :=
  have h := @claim_C7_roundtrip Nat Nat ⟨[.Used 0]⟩ ⟨0, 0⟩ (by decide)
    ⟨[none]⟩ ⟨fun _ => none⟩ 42 42
  ⟨by
      have := h.1
      rw [this]; rfl,
    h.2.1, by
      have := h.2.2.2.2.2.2.1
      rw [this]; rfl⟩

/-- Claim C4: `set` on a live entity whose index lies beyond the dense
backing length succeeds, growing the backing sequence to exactly
`max(2 * capacity, index + 1)` (capacity modelled by the length), with
every newly created slot absent, returning `Ok(absent)`, and a
subsequent `get` returns the stored value. -/
theorem claim_C4_dense_growth {T : Type} (es : Entities) (s : VecStorage T)
    (e : Entity) (v : T) (h : es.existsb e = true)
    (hlen : s.vec.length ≤ e.index) :
    ((s.set es e v).2 = .ok none) ∧
    (((s.set es e v).1).vec.length
      = max (2 * s.vec.length) (e.index + 1)) ∧
    (((s.set es e v).1).get es e = some v) ∧
    (∀ j, s.vec.length ≤ j → j ≠ e.index →
      ((s.set es e v).1).vec.getD j none = none) := by
  have hv : s.vec.get? e.index = none := by
    rw [List.get?_eq_getElem?]
    exact List.getElem?_eq_none hlen
  have hset := vec_set_grow s es e v h hv
  have hgl := grow_length s.vec e.index hlen
  refine ⟨by rw [hset], ?_, ?_, ?_⟩
  · rw [hset]
    simp only
    rw [List.length_set, hgl]
    omega
  · rw [hset]
    simp only [VecStorage.get, h, if_true]
    have hltg : e.index < (s.vec ++ List.replicate
        (max (s.vec.length * 2) (e.index + 1) - s.vec.length)
        (none : Option T)).length := by
      rw [hgl]; omega
    rw [List.getD_eq_getElem?_getD, ← List.get?_eq_getElem?,
      get?_set_self _ _ _ hltg]
    rfl
  · intro j hj hne
    rw [hset]
    simp only
    rw [List.getD_eq_getElem?_getD, ← List.get?_eq_getElem?,
      get?_set_ne _ _ _ _ (fun hEq => hne hEq.symm)]
    rcases Nat.lt_or_ge j (max (s.vec.length * 2) (e.index + 1)) with hj2 | hj2
    · rw [List.get?_eq_getElem?, List.getElem?_append_right hj,
        List.getElem?_replicate_of_lt (by omega)]
      rfl
    · rw [List.get?_eq_getElem?, List.getElem?_eq_none (by
        rw [grow_length _ _ hlen]; omega)]
      rfl

theorem claim_C4_witness :
    ((VecStorage.set (⟨[some 1]⟩ : VecStorage Nat)
        ⟨[.Used 0, .Used 0, .Used 0, .Used 0]⟩ ⟨3, 0⟩ 42).1
      = ⟨[some 1, none, none, some 42]⟩) ∧
    ((VecStorage.set (⟨[some 1]⟩ : VecStorage Nat)
        ⟨[.Used 0, .Used 0, .Used 0, .Used 0]⟩ ⟨3, 0⟩ 42).2 = .ok none) ∧
    (((VecStorage.set (⟨[some 1]⟩ : VecStorage Nat)
        ⟨[.Used 0, .Used 0, .Used 0, .Used 0]⟩ ⟨3, 0⟩ 42).1).get
      ⟨[.Used 0, .Used 0, .Used 0, .Used 0]⟩ ⟨3, 0⟩ = some 42) :=
  have h := @claim_C4_dense_growth Nat ⟨[.Used 0, .Used 0, .Used 0, .Used 0]⟩
    ⟨[some 1]⟩ ⟨3, 0⟩ 42 (by decide) (by decide)
  ⟨by decide, h.1, h.2.2.1⟩

/-- Claim C3: `spawn` takes the lowest-index `Unused` slot when one
exists, turning `Unused(g)` into `Used(g)` and returning that index and
generation; with no `Unused` slot it appends `Used(0)` and returns the
old length as the index with generation 0; either way the returned
entity exists immediately afterwards. The hypothesis keeps the table
within the range addressable by the u32 entity index. -/
theorem claim_C3_spawn (self : Entities) (h : self.ids.length < U32MOD) :
    (((self.spawn).1).existsb (self.spawn).2 = true) ∧
    (∀ i g, self.ids.get? i = some (.Unused g) →
      (∀ j x, j < i → self.ids.get? j = some x → x.is_unused = false) →
      self.spawn = (⟨self.ids.set i (.Used g)⟩, ⟨i, g⟩)) ∧
    ((∀ x, x ∈ self.ids → x.is_unused = false) →
      self.spawn = (⟨self.ids ++ [.Used 0]⟩, ⟨self.ids.length, 0⟩)) := by
  refine ⟨?_, ?_, ?_⟩
  · cases hf : List.findIdx? EntityIDEntry.is_unused self.ids with
    | some i =>
      obtain ⟨hilt, hfi⟩ := List.findIdx?_eq_some_iff_findIdx_eq.mp hf
      have hp : (self.ids[i]).is_unused = true := by
        have := @List.findIdx_getElem _ EntityIDEntry.is_unused self.ids
          (by rw [hfi]; exact hilt)
        simpa [hfi] using this
      have hgi : self.ids.get? i = some (self.ids[i]) := by
        rw [List.get?_eq_getElem?, List.getElem?_eq_getElem hilt]
      have hgen : (self.ids.getD i (.Unused 0)).generation
          = (self.ids[i]).generation := by
        rw [List.getD_eq_getElem?_getD, List.getElem?_eq_getElem hilt]
        rfl
      have hspawn : self.spawn
          = (⟨self.ids.set i (.Used ((self.ids[i]).generation))⟩,
              ⟨i % U32MOD, (self.ids[i]).generation⟩) := by
        unfold Entities.spawn
        simp only [hf, hgen]
      rw [hspawn, existsb_iff]
      simp only
      rw [Nat.mod_eq_of_lt (Nat.lt_trans hilt h),
        get?_set_self _ _ _ hilt]
    | none =>
      have hspawn : self.spawn
          = (⟨self.ids ++ [.Used 0]⟩, ⟨self.ids.length % U32MOD, 0⟩) := by
        unfold Entities.spawn
        simp only [hf]
      rw [hspawn, existsb_iff]
      simp only
      rw [Nat.mod_eq_of_lt h, List.get?_eq_getElem?,
        List.getElem?_append_right (Nat.le_refl _), Nat.sub_self]
      rfl
  · intro i g hi hmin
    have hfi : self.ids.findIdx EntityIDEntry.is_unused = i :=
      findIdx_eq_of _ _ i _ hi rfl hmin
    have hilt : i < self.ids.length := get?_some_lt hi
    have hf : List.findIdx? EntityIDEntry.is_unused self.ids = some i :=
      List.findIdx?_eq_some_iff_findIdx_eq.mpr ⟨hilt, hfi⟩
    have hgen : (self.ids.getD i (.Unused 0)).generation = g := by
      rw [List.getD_eq_getElem?_getD, ← List.get?_eq_getElem?, hi]
      rfl
    unfold Entities.spawn
    simp only [hf, hgen]
    rw [Nat.mod_eq_of_lt (Nat.lt_trans hilt h)]
  · intro hall
    have hf : List.findIdx? EntityIDEntry.is_unused self.ids = none :=
      List.findIdx?_eq_none_iff.mpr hall
    unfold Entities.spawn
    simp only [hf]
    rw [Nat.mod_eq_of_lt h]

theorem claim_C3_witness :
    ((Entities.spawn ⟨[.Used 2, .Unused 5]⟩).1.existsb
      (Entities.spawn ⟨[.Used 2, .Unused 5]⟩).2 = true) ∧
    (Entities.spawn ⟨[.Used 2, .Unused 5]⟩
      = (⟨[.Used 2, .Used 5]⟩, ⟨1, 5⟩)) ∧
    (Entities.spawn ⟨[.Used 2]⟩ = (⟨[.Used 2, .Used 0]⟩, ⟨1, 0⟩)) :=
  have h1 := claim_C3_spawn ⟨[.Used 2, .Unused 5]⟩ (by decide)
  have h2 := claim_C3_spawn ⟨[.Used 2]⟩ (by decide)
  ⟨h1.1, by
      have := h1.2.1 1 5 (by decide) (by
        intro j x hj hx
        have hj0 : j = 0 := Nat.lt_one_iff.mp hj
        subst hj0
        injection hx with hx2
        subst hx2
        rfl)
      simpa using this,
    by
      have := h2.2.2 (by decide)
      simpa using this⟩

/-- `Entities::iter` starting the enumeration at offset `n`: equal to
`Entities.iter` at `n = 0`. -/
def iterFromAux (n : Nat) (l : List EntityIDEntry) : List Entity :=
  (List.enumFrom n l).filterMap fun p =>
    match p.2 with
    | .Used gen => some ⟨p.1 % U32MOD, gen⟩
    | .Unused _ => none

theorem iter_eq_aux (self : Entities) : self.iter = iterFromAux 0 self.ids :=
  rfl

theorem iterFromAux_nil (n : Nat) : iterFromAux n [] = [] := rfl

theorem iterFromAux_cons_used (n g : Nat) (l : List EntityIDEntry) :
    iterFromAux n (.Used g :: l) = ⟨n % U32MOD, g⟩ :: iterFromAux (n + 1) l :=
  rfl

theorem iterFromAux_cons_unused (n g : Nat) (l : List EntityIDEntry) :
    iterFromAux n (.Unused g :: l) = iterFromAux (n + 1) l :=
  rfl

theorem iterFromAux_mem (l : List EntityIDEntry) (n : Nat) (e : Entity)
    (h : n + l.length ≤ U32MOD) :
    e ∈ iterFromAux n l ↔
      ∃ i, l.get? i = some (.Used e.generation) ∧ e.index = n + i := by
  induction l generalizing n with
  | nil =>
    simp [iterFromAux_nil]
  | cons x l ih =>
    have hlen : n + (x :: l).length = (n + 1) + l.length := by
      simp; omega
    have hmod : n % U32MOD = n := by
      apply Nat.mod_eq_of_lt
      simp at h
      omega
    have ihn := ih (n + 1) (by rw [hlen] at h; exact h)
    cases x with
    | Used g =>
      rw [iterFromAux_cons_used, List.mem_cons, ihn, hmod]
      constructor
      · rintro (hEq | ⟨i, hi, hidx⟩)
        · refine ⟨0, ?_, ?_⟩
          · rw [hEq]
            rfl
          · rw [hEq]
            simp
        · exact ⟨i + 1, hi, by omega⟩
      · rintro ⟨i, hi, hidx⟩
        cases i with
        | zero =>
          left
          have : EntityIDEntry.Used g = .Used e.generation := by
            injection hi
          have hgg : g = e.generation := by injection this
          cases e with
          | mk ei eg =>
            simp only at hidx hgg
            rw [hidx, ← hgg]
            simp
        | succ i =>
          right
          exact ⟨i, hi, by omega⟩
    | Unused g =>
      rw [iterFromAux_cons_unused, ihn]
      constructor
      · rintro ⟨i, hi, hidx⟩
        exact ⟨i + 1, hi, by omega⟩
      · rintro ⟨i, hi, hidx⟩
        cases i with
        | zero =>
          exfalso
          injection hi with hi
          exact absurd hi (by simp)
        | succ i =>
          exact ⟨i, hi, by omega⟩

theorem iterFromAux_pairwise (l : List EntityIDEntry) (n : Nat)
    (h : n + l.length ≤ U32MOD) :
    (iterFromAux n l).Pairwise (fun a b => a.index < b.index) := by
  induction l generalizing n with
  | nil =>
    rw [iterFromAux_nil]
    exact List.Pairwise.nil
  | cons x l ih =>
    have hlen : n + (x :: l).length = (n + 1) + l.length := by
      simp; omega
    have hn : (n + 1) + l.length ≤ U32MOD := by rw [hlen] at h; exact h
    cases x with
    | Used g =>
      rw [iterFromAux_cons_used]
      refine List.Pairwise.cons ?_ (ih (n + 1) hn)
      intro b hb
      obtain ⟨i, _, hidx⟩ := (iterFromAux_mem l (n + 1) b hn).mp hb
      have hmod : n % U32MOD = n := by
        apply Nat.mod_eq_of_lt
        simp at h
        omega
      simp only [hmod]
      omega
    | Unused g =>
      rw [iterFromAux_cons_unused]
      exact ih (n + 1) hn

/-- Claim C9: `iter` yields exactly the currently alive entities — one
per `Used` slot, with that slot index and generation, and no others —
in strictly ascending index order; the result is a finite list. The
hypothesis keeps the table within the range addressable by the u32
entity index. -/
theorem claim_C9_iter (self : Entities) (h : self.ids.length ≤ U32MOD) :
    (∀ e, e ∈ self.iter ↔ self.existsb e = true) ∧
    ((self.iter.map Entity.index).Pairwise (fun a b => a < b)) := by
  constructor
  · intro e
    rw [iter_eq_aux, iterFromAux_mem _ _ _ (by omega), existsb_iff]
    constructor
    · rintro ⟨i, hi, hidx⟩
      have : e.index = i := by omega
      rw [this]
      exact hi
    · intro hg
      exact ⟨e.index, hg, by omega⟩
  · rw [List.pairwise_map]
    rw [iter_eq_aux]
    exact iterFromAux_pairwise self.ids 0 (by omega)

theorem claim_C9_witness :
    ((⟨0, 3⟩ : Entity) ∈ Entities.iter ⟨[.Used 3, .Unused 7, .Used 1]⟩) ∧
    (((Entities.iter ⟨[.Used 3, .Unused 7, .Used 1]⟩).map
      Entity.index).Pairwise (fun a b => a < b)) :=
  have h := claim_C9_iter ⟨[.Used 3, .Unused 7, .Used 1]⟩ (by decide)
  ⟨(h.1 ⟨0, 3⟩).mpr (by decide), h.2⟩

/-- The success branch of `Entities::despawn` on a live handle. -/
theorem despawn_of_alive (self : Entities) (e : Entity)
    (h : self.existsb e = true) :
    self.despawn e
      = (⟨self.ids.set e.index
          (.Unused ((e.generation + 1) % U32MOD))⟩, .ok ()) := by
  have hg := (existsb_iff self e).mp h
  unfold Entities.despawn
  rw [hg]
  simp

/-- Claim C1: in the composed world, despawning a live entity succeeds
(registry despawn, then `remove_unchecked` fan-out over both storages);
if the next spawn reuses the same index, both storages report absent for
the fresh entity until something is set for it; and in any state at all,
a storage never shows a component for an entity the registry considers
dead. -/
theorem claim_C1_composed (T U : Type) :
    (∀ (w : World T U) (e : Entity), w.entities.existsb e = true →
      ((w.despawn e).2 = .ok () ∧
        (((((w.despawn e).1).spawn).2).index = e.index →
          (((w.despawn e).1).spawn).1.dense.get
              (((((w.despawn e).1).spawn).1).entities)
              ((((w.despawn e).1).spawn).2) = none ∧
          (((w.despawn e).1).spawn).1.sparse.get
              (((((w.despawn e).1).spawn).1).entities)
              ((((w.despawn e).1).spawn).2) = none))) ∧
    (∀ (w : World T U) (e2 : Entity), w.entities.existsb e2 = false →
      w.dense.get w.entities e2 = none ∧
        w.sparse.get w.entities e2 = none) := by
  constructor
  · intro w e h
    have hd := despawn_of_alive w.entities e h
    have hw : w.despawn e
        = (⟨(w.entities.despawn e).1, (w.dense.remove_unchecked e).1,
            (w.sparse.remove_unchecked e).1⟩, .ok ()) := by
      unfold World.despawn
      rw [hd]
    refine ⟨by rw [hw], ?_⟩
    intro hidx
    rw [hw] at hidx ⊢
    constructor
    · show VecStorage.get _ _ _ = none
      unfold VecStorage.get
      cases hex : (((⟨(w.entities.despawn e).1, (w.dense.remove_unchecked e).1,
            (w.sparse.remove_unchecked e).1⟩ : World T U).spawn).1).entities.existsb
          (((⟨(w.entities.despawn e).1, (w.dense.remove_unchecked e).1,
            (w.sparse.remove_unchecked e).1⟩ : World T U).spawn).2) with
      | false => simp [hex]
      | true =>
        simp only [hex, if_true]
        have hdense : (((⟨(w.entities.despawn e).1,
            (w.dense.remove_unchecked e).1,
            (w.sparse.remove_unchecked e).1⟩ : World T U).spawn).1).dense
            = (w.dense.remove_unchecked e).1 := rfl
        rw [hdense, hidx]
        exact vec_remove_unchecked_getD w.dense e
    · show MapStorage.get _ _ _ = none
      unfold MapStorage.get
      cases hex : (((⟨(w.entities.despawn e).1, (w.dense.remove_unchecked e).1,
            (w.sparse.remove_unchecked e).1⟩ : World T U).spawn).1).entities.existsb
          (((⟨(w.entities.despawn e).1, (w.dense.remove_unchecked e).1,
            (w.sparse.remove_unchecked e).1⟩ : World T U).spawn).2) with
      | false => simp [hex]
      | true =>
        simp only [hex, if_true]
        have hsparse : (((⟨(w.entities.despawn e).1,
            (w.dense.remove_unchecked e).1,
            (w.sparse.remove_unchecked e).1⟩ : World T U).spawn).1).sparse
            = (w.sparse.remove_unchecked e).1 := rfl
        rw [hsparse, hidx]
        exact map_remove_unchecked_at w.sparse e
  · intro w e2 h2
    constructor
    · unfold VecStorage.get
      simp [h2]
    · unfold MapStorage.get
      simp [h2]

theorem claim_C1_witness :
    (((World.mk ⟨[.Used 0]⟩ ⟨[some 4]⟩ ⟨fun _ => some 6⟩ :
        World Nat Nat).despawn ⟨0, 0⟩).2 = .ok ()) ∧
    ((((World.mk ⟨[.Used 0]⟩ ⟨[some 4]⟩ ⟨fun _ => some 6⟩ :
        World Nat Nat).despawn ⟨0, 0⟩).1.spawn).1.dense.get
      (((((World.mk ⟨[.Used 0]⟩ ⟨[some 4]⟩ ⟨fun _ => some 6⟩ :
        World Nat Nat).despawn ⟨0, 0⟩).1.spawn).1).entities)
      ((((World.mk ⟨[.Used 0]⟩ ⟨[some 4]⟩ ⟨fun _ => some 6⟩ :
        World Nat Nat).despawn ⟨0, 0⟩).1.spawn).2) = none) ∧
    ((((World.mk ⟨[.Used 0]⟩ ⟨[some 4]⟩ ⟨fun _ => some 6⟩ :
        World Nat Nat).despawn ⟨0, 0⟩).1.spawn).1.sparse.get
      (((((World.mk ⟨[.Used 0]⟩ ⟨[some 4]⟩ ⟨fun _ => some 6⟩ :
        World Nat Nat).despawn ⟨0, 0⟩).1.spawn).1).entities)
      ((((World.mk ⟨[.Used 0]⟩ ⟨[some 4]⟩ ⟨fun _ => some 6⟩ :
        World Nat Nat).despawn ⟨0, 0⟩).1.spawn).2) = none) :=
  have h := (claim_C1_composed Nat Nat).1
    (World.mk ⟨[.Used 0]⟩ ⟨[some 4]⟩ ⟨fun _ => some 6⟩) ⟨0, 0⟩ (by decide)
  have h2 := h.2 (by rfl)
  ⟨h.1, h2.1, h2.2⟩

end Genesis
